import Mathlib

/-!
Verification of the identity-patching utility `scripts/ci/patch-app-identity.mjs`.

The program is a sequence of pure string transformations (regex locate-and-replace)
plus compare-and-write file updates, driven by environment variables.  We embed the
program shallowly: file contents and JS strings are `List Char`, the specific regular
expressions used by the script are translated into deterministic matcher functions
with JavaScript first-match (leftmost) semantics, and the filesystem is a record of
the four target file contents threaded through the handler sequence.
-/

namespace PatchApp

/-- Characters of a JS string / file content. -/
abbrev Str := List Char

/-- Convert a Lean string literal to the character-list representation. -/
def lc (s : String) : Str := s.toList

/-- The double-quote character. -/
def dqc : Char := Char.ofNat 34

/-- The single-quote character. -/
def sqc : Char := Char.ofNat 39

/-- The backtick character. -/
def bqc : Char := Char.ofNat 96

/-- The dollar character (used in JS replacement templates). -/
def dollarc : Char := Char.ofNat 36

/-- The ampersand character. -/
def ampc : Char := Char.ofNat 38

/-- The opening curly brace character. -/
def obrc : Char := Char.ofNat 123

/-- The closing curly brace character. -/
def cbrc : Char := Char.ofNat 125

/-- The quote class of the script's regexes: double quote, single quote or backtick. -/
def isQuoteCh (c : Char) : Bool := c = dqc || c = sqc || c = bqc

/-- JS word character (regex `\w` and the `\b` boundary): ASCII letters, digits, underscore. -/
def isWordCh (c : Char) : Bool := c.isAlphanum || c = '_'

/-- Whitespace recognised by JS `\s` and `String.prototype.trim`. -/
def jsWsChars : Str :=
  [' ', '\t', '\n', Char.ofNat 13, Char.ofNat 11, Char.ofNat 12,
   Char.ofNat 0xa0, Char.ofNat 0x1680,
   Char.ofNat 0x2000, Char.ofNat 0x2001, Char.ofNat 0x2002, Char.ofNat 0x2003,
   Char.ofNat 0x2004, Char.ofNat 0x2005, Char.ofNat 0x2006, Char.ofNat 0x2007,
   Char.ofNat 0x2008, Char.ofNat 0x2009, Char.ofNat 0x200a,
   Char.ofNat 0x2028, Char.ofNat 0x2029, Char.ofNat 0x202f, Char.ofNat 0x205f,
   Char.ofNat 0x3000, Char.ofNat 0xfeff]

/-- Whether a character is JS whitespace. -/
def jsWsCh (c : Char) : Bool := jsWsChars.contains c

/-- JS `String.prototype.trim`: strip whitespace from both ends. -/
def jsTrim (s : Str) : Str :=
  ((s.dropWhile jsWsCh).reverse.dropWhile jsWsCh).reverse

/-- Match a literal pattern at the head of `s`; on success return the rest of `s`. -/
def litP : Str → Str → Option Str
  | [], s => some s
  | _ :: _, [] => none
  | p :: pt, c :: ct => if c = p then litP pt ct else none

/-- Whether `needle` occurs as a contiguous substring of `s`. -/
def hasSub (needle : Str) : Str → Bool
  | [] => (litP needle []).isSome
  | c :: t => (litP needle (c :: t)).isSome || hasSub needle t

/-- JS regex word boundary before a word character, given the preceding character. -/
def wordBoundaryOk (prev : Option Char) : Bool :=
  match prev with
  | none => true
  | some c => !(isWordCh c)

/-- Leftmost-match scan: try matcher `m` at every position of `s` from the left,
threading the previous character (for word-boundary tests).  On success return the
unmatched text before the match together with the matcher's result. -/
def scanP (m : Option Char → Str → Option α) : Option Char → Str → Option (Str × α)
  | prev, s =>
    match m prev s with
    | some a => some ([], a)
    | none =>
      match s with
      | [] => none
      | c :: t =>
        match scanP m (some c) t with
        | some (p, a) => some (c :: p, a)
        | none => none

/-- Matcher for the pattern `(\b<key>\s*)(["'`])([^"'`]+)(\2)` at the current
position: a word-boundary, the literal `key` (e.g. `appId:`), optional whitespace,
an opening quote, a nonempty run of non-quote characters, and the same quote again.
Returns the groups: prefix (key plus whitespace), the quote character, the body, and
the rest of the input after the closing quote. -/
def quotedAssignAt (key : Str) (prev : Option Char) (s : Str) :
    Option (Str × Char × Str × Str) :=
  if wordBoundaryOk prev then
    match litP key s with
    | none => none
    | some s1 =>
      let ws := s1.takeWhile jsWsCh
      match s1.dropWhile jsWsCh with
      | [] => none
      | q :: s3 =>
        if isQuoteCh q then
          let body := s3.takeWhile (fun c => !(isQuoteCh c))
          match s3.dropWhile (fun c => !(isQuoteCh c)) with
          | [] => none
          | q2 :: s4 =>
            if body.isEmpty then none
            else if q2 = q then some (key ++ ws, q, body, s4) else none
        else none
  else none

/-- Interpret a JS string-replacement template: `$$` is a literal dollar, `$&` the
matched text, a backtick-dollar the text before the match, a quote-dollar the text
after it, `$n`/`$nn` a capture group (falling back to literal text when the group
number is out of range), everything else is copied. -/
def substTemplateGo (groups : List Str) (matched before after : Str) : Nat → Str → Str
  | 0, _ => []
  | _, [] => []
  | fuel + 1, c :: t =>
    if c = dollarc then
      match t with
      | [] => [dollarc]
      | d :: t2 =>
        if d = dollarc then dollarc :: substTemplateGo groups matched before after fuel t2
        else if d = ampc then matched ++ substTemplateGo groups matched before after fuel t2
        else if d = bqc then before ++ substTemplateGo groups matched before after fuel t2
        else if d = sqc then after ++ substTemplateGo groups matched before after fuel t2
        else if d.isDigit then
          match t2 with
          | e :: t3 =>
            if e.isDigit then
              let nn := (d.toNat - 48) * 10 + (e.toNat - 48)
              if 1 ≤ nn ∧ nn ≤ groups.length then
                ((groups.get? (nn - 1)).getD []) ++ substTemplateGo groups matched before after fuel t3
              else
                let n := d.toNat - 48
                if 1 ≤ n ∧ n ≤ groups.length then
                  ((groups.get? (n - 1)).getD []) ++ substTemplateGo groups matched before after fuel (e :: t3)
                else dollarc :: d :: substTemplateGo groups matched before after fuel (e :: t3)
            else
              let n := d.toNat - 48
              if 1 ≤ n ∧ n ≤ groups.length then
                ((groups.get? (n - 1)).getD []) ++ substTemplateGo groups matched before after fuel (e :: t3)
              else dollarc :: d :: substTemplateGo groups matched before after fuel (e :: t3)
          | [] =>
            let n := d.toNat - 48
            if 1 ≤ n ∧ n ≤ groups.length then
              ((groups.get? (n - 1)).getD []) ++ ([] : Str)
            else [dollarc, d]
        else dollarc :: d :: substTemplateGo groups matched before after fuel t2
    else c :: substTemplateGo groups matched before after fuel t

/-- Process a template, with enough fuel for the whole of it (each step of the
worker consumes at least one template character). -/
def substTemplate (groups : List Str) (matched before after : Str) (s : Str) : Str :=
  substTemplateGo groups matched before after s.length s

/-- The message of the `Pattern not found` error thrown by `replaceOrThrow`,
with the regex's display form appended as JS does with string interpolation. -/
def patternNotFoundMsg (what reDisp : Str) : Str :=
  lc "Pattern not found for " ++ what ++ lc ": " ++ reDisp

/-- Embedding of `replaceOrThrow` applied to a quoted-assignment regex
`(\b<key>\s*)(["'`])([^"'`]+)(\2)` and a string replacement template: if the pattern
does not occur, fail with the `Pattern not found` message; otherwise replace the
first match by the processed template. -/
def replaceOrThrowQuoted (key template what reDisp content : Str) : Except Str Str :=
  match scanP (quotedAssignAt key) none content with
  | none => Except.error (patternNotFoundMsg what reDisp)
  | some (pre, (g1, q, body, after)) =>
    let matched := g1 ++ [q] ++ body ++ [q]
    Except.ok (pre ++ substTemplate [g1, [q], body, [q]] matched pre after template ++ after)

/-- Display form of the `appId` regex, as JS renders it in the error message. -/
def appIdReDisp : Str :=
  lc "/(\\bappId:\\s*)([" ++ [dqc, sqc, bqc] ++ lc "])([^" ++ [dqc, sqc, bqc] ++ lc "]+)(\\2)/"

/-- Display form of the `productName` regex. -/
def productNameReDisp : Str :=
  lc "/(\\bproductName:\\s*)([" ++ [dqc, sqc, bqc] ++ lc "])([^" ++ [dqc, sqc, bqc] ++ lc "]+)(\\2)/"

/-- The `appId` patch step of `patchElectronBuilderTs` (line 66 of the script):
replace the first quoted `appId:` assignment using the template `$1"<appId>"$4`. -/
def appIdStep (appId content : Str) : Except Str Str :=
  replaceOrThrowQuoted (lc "appId:") (lc "$1\"" ++ appId ++ lc "\"$4")
    (lc "electron-builder appId") appIdReDisp content

/-- The `productName` patch step of `patchElectronBuilderTs` (lines 67-72):
replace the first quoted `productName:` assignment using `$1"<productName>"$4`. -/
def productNameStep (productName content : Str) : Except Str Str :=
  replaceOrThrowQuoted (lc "productName:") (lc "$1\"" ++ productName ++ lc "\"$4")
    (lc "electron-builder productName") productNameReDisp content

/-- Matcher for `<kw>\s*\{` (with a leading word boundary when `needBound` is set,
as in `\bwin:`): the literal keyword, optional whitespace, an opening brace.
Returns the consumed text and the rest. -/
def blockOpenAt (kw : Str) (needBound : Bool) (prev : Option Char) (s : Str) :
    Option (Str × Str) :=
  if needBound && !(wordBoundaryOk prev) then none
  else
    match litP kw s with
    | none => none
    | some s1 =>
      match s1.dropWhile jsWsCh with
      | [] => none
      | c :: s2 => if c = obrc then some (kw ++ s1.takeWhile jsWsCh ++ [obrc], s2) else none

/-- The literal key of the executable-name field. -/
def execKey : Str := lc "executableName:"

/-- Matcher for `\bexecutableName:\s*["'`]` (the presence-test form, which needs
only an opening quote after the field name). -/
def execQuotePresentAt (prev : Option Char) (s : Str) : Option Unit :=
  if wordBoundaryOk prev then
    match litP execKey s with
    | none => none
    | some s1 =>
      match s1.dropWhile jsWsCh with
      | [] => none
      | q :: _ => if isQuoteCh q then some () else none
  else none

/-- Matcher for `<kw>\s*\{[\s\S]*?\bexecutableName:\s*["'`]`: the block opener
followed (lazily, anywhere up to the end of the input — the lazy run may cross the
block's closing brace) by a quoted executable-name field opener. -/
def blockExecTestAt (kw : Str) (needBound : Bool) (prev : Option Char) (s : Str) :
    Option Unit :=
  match blockOpenAt kw needBound prev s with
  | none => none
  | some (_, rest) =>
    match scanP execQuotePresentAt (some obrc) rest with
    | some _ => some ()
    | none => none

/-- Matcher for the full replacement regex
`(<kw>\s*\{[\s\S]*?\bexecutableName:\s*)(["'`])([^"'`]+)(\2)`: as the test form but
requiring a nonempty non-quote body closed by the same quote.  Returns group 1
(everything up to and including `executableName:` and its whitespace), the quote,
the body and the rest after the closing quote. -/
def blockExecFullAt (kw : Str) (needBound : Bool) (prev : Option Char) (s : Str) :
    Option (Str × Char × Str × Str) :=
  match blockOpenAt kw needBound prev s with
  | none => none
  | some (opened, rest) =>
    match scanP (quotedAssignAt execKey) (some obrc) rest with
    | none => none
    | some (innerPre, (g, q, body, after)) => some (opened ++ innerPre ++ g, q, body, after)

/-- Whether `/\bwin:\s*\{[\s\S]*?\bexecutableName:\s*["'`]/m` matches the content
(line 75 of the script). -/
def winExecTest (content : Str) : Bool :=
  (scanP (blockExecTestAt (lc "win:") true) none content).isSome

/-- The replacement of the first `win:`-block executable-name match by the arrow
function `` (_m, p1, quote, _old, p4) => `${p1}${quote}${executableName}${p4}` ``
(lines 76-79); the identity when the regex does not match. -/
def winExecReplace (content name : Str) : Str :=
  match scanP (blockExecFullAt (lc "win:") true) none content with
  | none => content
  | some (pre, (p1, q, _body, after)) => pre ++ p1 ++ [q] ++ name ++ [q] ++ after

/-- The Windows best-effort alignment step of `patchElectronBuilderTs`
(lines 74-80): replace only when the test regex matches. -/
def winStep (name content : Str) : Str :=
  if winExecTest content then winExecReplace content name else content

/-- Whether `/linux:\s*\{[\s\S]*?\bexecutableName:\s*["'`]/m` matches
(line 46 of the script). -/
def linuxExecTest (content : Str) : Bool :=
  (scanP (blockExecTestAt (lc "linux:") false) none content).isSome

/-- The replacement of the first `linux:`-block executable-name match
(lines 48-51); the identity when the full regex does not match. -/
def linuxExecReplace (content name : Str) : Str :=
  match scanP (blockExecFullAt (lc "linux:") false) none content with
  | none => content
  | some (pre, (p1, q, _body, after)) => pre ++ p1 ++ [q] ++ name ++ [q] ++ after

/-- Greedy `\s*` followed by a required `\n` (with backtracking): consume the
leading whitespace run up to and including its last newline; fail when the run
contains no newline. -/
def wsNl : Str → Option (Str × Str)
  | [] => none
  | c :: t =>
    if jsWsCh c then
      match wsNl t with
      | some (a, r) => some (c :: a, r)
      | none => if c = '\n' then some ([c], t) else none
    else none

/-- Matcher for the insertion anchor `(linux:\s*\{\s*\n)`: the `linux:` block
opener whose brace is followed by whitespace ending in a newline. -/
def linuxAnchorAt (prev : Option Char) (s : Str) : Option (Str × Str) :=
  match blockOpenAt (lc "linux:") false prev s with
  | none => none
  | some (opened, rest) =>
    match wsNl rest with
    | none => none
    | some (w2, r) => some (opened ++ w2, r)

/-- Display form of the insertion-anchor regex as JS renders it:
`/(linux:\s*\{\s*\n)/m`. -/
def linuxAnchorReDisp : Str := lc "/(linux:\\s*\\\x7b\\s*\\n)/m"

/-- The error produced when the `linux:` insertion anchor is absent. -/
def linuxInsertNotFoundMsg : Str :=
  patternNotFoundMsg (lc "electron-builder linux.executableName insertion") linuxAnchorReDisp

/-- Embedding of `ensureLinuxExecutableName` (lines 45-60): patch the first quoted
executable-name occurring after a `linux:` opening brace when the test regex finds
one; otherwise insert `    executableName: "<name>",` after the insertion anchor via
`replaceOrThrow` with the template `` `$1    executableName: "${executableName}",\n` ``,
failing with `Pattern not found` when the anchor is missing. -/
def ensureLinuxExecutableName (builderTs name : Str) : Except Str Str :=
  if linuxExecTest builderTs then Except.ok (linuxExecReplace builderTs name)
  else
    match scanP linuxAnchorAt none builderTs with
    | none => Except.error linuxInsertNotFoundMsg
    | some (pre, (g1, rest)) =>
      Except.ok (pre ++
        substTemplate [g1] g1 pre rest
          (lc "$1    executableName: \"" ++ name ++ lc "\",\n") ++ rest)

/-- Display form of the default-browser regex: `/xdg-settings set default-web-browser\s+[^\s"']+/`. -/
def xdgReDisp : Str :=
  lc "/xdg-settings set default-web-browser\\s+[^\\s" ++ [dqc, sqc] ++ lc "]+/"

/-- Matcher for `xdg-settings set default-web-browser\s+[^\s"']+`: the literal
command, at least one whitespace character, then a nonempty run of characters that
are neither whitespace nor a double or single quote.  Returns the matched text and
the rest. -/
def xdgAt (_prev : Option Char) (s : Str) : Option (Str × Str) :=
  match litP (lc "xdg-settings set default-web-browser") s with
  | none => none
  | some s1 =>
    let ws := s1.takeWhile jsWsCh
    if ws.isEmpty then none
    else
      let s2 := s1.dropWhile jsWsCh
      let arg := s2.takeWhile (fun c => !(jsWsCh c || c = dqc || c = sqc))
      if arg.isEmpty then none
      else some (lc "xdg-settings set default-web-browser" ++ ws ++ arg,
        s2.dropWhile (fun c => !(jsWsCh c || c = dqc || c = sqc)))

/-- Embedding of `patchDefaultBrowserController`'s content transformation
(lines 90-95): replace the first match of the xdg command pattern by the template
`` `xdg-settings set default-web-browser ${desktopFile}` ``. -/
def patchDefaultBrowserControllerContent (desktopFile content : Str) : Except Str Str :=
  match scanP xdgAt none content with
  | none => Except.error (patternNotFoundMsg (lc "linux default browser desktop file") xdgReDisp)
  | some (pre, (matched, after)) =>
    Except.ok (pre ++
      substTemplate [] matched pre after
        (lc "xdg-settings set default-web-browser " ++ desktopFile) ++ after)

/-- The fixed banner string searched for by the header handler. -/
def bannerStr : Str := lc "--- Flow Browser ---"

/-- JS `String.prototype.replaceAll` specialised to the banner needle with a
replacement template: non-overlapping left-to-right occurrences are each replaced by
the processed template (`revPre` accumulates, reversed, the input text before the
current position so the template's context parts are exact). -/
def replaceAllBannerGo (tmpl : Str) : Nat → Str → Str → Str
  | 0, _, _ => []
  | _, _, [] => []
  | fuel + 1, revPre, c :: t =>
    if (litP bannerStr (c :: t)).isSome then
      substTemplate [] bannerStr revPre.reverse (t.drop 19) tmpl ++
        replaceAllBannerGo tmpl fuel (bannerStr.reverse ++ revPre) (t.drop 19)
    else c :: replaceAllBannerGo tmpl fuel (c :: revPre) t

/-- Run the `replaceAll` worker with enough fuel for the whole input (each step
consumes at least one input character). -/
def replaceAllBannerT (tmpl revPre s : Str) : Str :=
  replaceAllBannerGo tmpl s.length revPre s

/-- Embedding of `patchMainHeader`'s content transformation (lines 100-108):
when the banner occurs, replace all its (non-overlapping) occurrences by
`` `--- ${productName} ---` ``; otherwise leave the content unchanged. -/
def patchMainHeaderContent (productName content : Str) : Str :=
  if hasSub bannerStr content then
    replaceAllBannerT (lc "--- " ++ productName ++ lc " ---") [] content
  else content

/-- JSON values, as produced by `JSON.parse`.  Numbers are modelled as integers
(the fixture manifests contain no fractional numbers). -/
inductive JValue where
  | jnull : JValue
  | jbool : Bool → JValue
  | jnum : Int → JValue
  | jstr : Str → JValue
  | jarr : List JValue → JValue
  | jobj : List (Str × JValue) → JValue

/-- Hexadecimal digit test for JSON `\u` escapes. -/
def isHexCh (c : Char) : Bool :=
  c.isDigit || (decide ('a' ≤ c) && decide (c ≤ 'f')) || (decide ('A' ≤ c) && decide (c ≤ 'F'))

/-- JSON's own whitespace set (space, tab, newline, carriage return). -/
def jsonWsCh (c : Char) : Bool := c = ' ' || c = '\t' || c = '\n' || c = Char.ofNat 13

/-- Lowercase hexadecimal digit for a value below 16. -/
def hexDigitCh (n : Nat) : Char :=
  if n < 10 then Char.ofNat (48 + n) else Char.ofNat (87 + n)

/-- `JSON.stringify` escaping of one character inside a string literal. -/
def jsonEscapeCh (c : Char) : Str :=
  if c = dqc then ['\\', dqc]
  else if c = '\\' then ['\\', '\\']
  else if c = Char.ofNat 8 then ['\\', 'b']
  else if c = '\t' then ['\\', 't']
  else if c = '\n' then ['\\', 'n']
  else if c = Char.ofNat 12 then ['\\', 'f']
  else if c = Char.ofNat 13 then ['\\', 'r']
  else if c.toNat < 32 then
    ['\\', 'u', '0', '0', hexDigitCh (c.toNat / 16), hexDigitCh (c.toNat % 16)]
  else [c]

/-- `JSON.stringify` rendering of a string: double quotes around escaped characters. -/
def jsonQuoteStr (s : Str) : Str :=
  [dqc] ++ s.flatMap jsonEscapeCh ++ [dqc]

/-- `n` copies of the two-space indent used by `JSON.stringify(x, null, 2)`. -/
def jsonIndent (n : Nat) : Str := List.replicate (2 * n) ' '

mutual

/-- `JSON.stringify(v, null, 2)` at nesting depth `d`. -/
def ppJ : Nat → JValue → Str
  | _, JValue.jnull => lc "null"
  | _, JValue.jbool true => lc "true"
  | _, JValue.jbool false => lc "false"
  | _, JValue.jnum n => lc (toString n)
  | _, JValue.jstr s => jsonQuoteStr s
  | d, JValue.jarr l =>
    match l with
    | [] => lc "[]"
    | _ :: _ =>
      lc "[\n" ++
        (List.intercalate (lc ",\n") ((ppArr (d + 1) l).map (fun it => jsonIndent (d + 1) ++ it))) ++
        [Char.ofNat 10] ++ jsonIndent d ++ lc "]"
  | d, JValue.jobj l =>
    match l with
    | [] => lc "\x7b\x7d"
    | _ :: _ =>
      [obrc, Char.ofNat 10] ++
        (List.intercalate (lc ",\n") ((ppObj (d + 1) l).map (fun it => jsonIndent (d + 1) ++ it))) ++
        [Char.ofNat 10] ++ jsonIndent d ++ [cbrc]

/-- Render each array element at depth `d`. -/
def ppArr : Nat → List JValue → List Str
  | _, [] => []
  | d, v :: t => ppJ d v :: ppArr d t

/-- Render each object member `"key": value` at depth `d`. -/
def ppObj : Nat → List (Str × JValue) → List Str
  | _, [] => []
  | d, (k, v) :: t => (jsonQuoteStr k ++ lc ": " ++ ppJ d v) :: ppObj d t

end

/-- JS property assignment on an object's member list: update the first member with
the key in place (preserving member order), or append a new member. -/
def jsSet (l : List (Str × JValue)) (k : Str) (v : JValue) : List (Str × JValue) :=
  match l with
  | [] => [(k, v)]
  | (k0, v0) :: t => if k0 = k then (k0, v) :: t else (k0, v0) :: jsSet t k v

/-- Parse the body of a JSON string literal (after the opening quote), with fuel. -/
def parseJStr : Nat → Str → Option (Str × Str)
  | 0, _ => none
  | _, [] => none
  | fuel + 1, c :: t =>
    if c = dqc then some ([], t)
    else if c = '\\' then
      match t with
      | [] => none
      | e :: t2 =>
        let cont (ch : Char) (rest : Str) : Option (Str × Str) :=
          match parseJStr fuel rest with
          | some (v, r) => some (ch :: v, r)
          | none => none
        if e = dqc then cont dqc t2
        else if e = '\\' then cont '\\' t2
        else if e = '/' then cont '/' t2
        else if e = 'b' then cont (Char.ofNat 8) t2
        else if e = 'f' then cont (Char.ofNat 12) t2
        else if e = 'n' then cont '\n' t2
        else if e = 'r' then cont (Char.ofNat 13) t2
        else if e = 't' then cont '\t' t2
        else if e = 'u' then
          match t2 with
          | h1 :: h2 :: h3 :: h4 :: t3 =>
            if isHexCh h1 && isHexCh h2 && isHexCh h3 && isHexCh h4 then
              let code := ((h1.toNat % 32 + 9) % 25) * 4096 + ((h2.toNat % 32 + 9) % 25) * 256 +
                ((h3.toNat % 32 + 9) % 25) * 16 + ((h4.toNat % 32 + 9) % 25)
              cont (Char.ofNat code) t3
            else none
          | _ => none
        else none
    else if c.toNat < 32 then none
    else
      match parseJStr fuel t with
      | some (v, r) => some (c :: v, r)
      | none => none

/-- Parse a JSON integer (an optional minus sign and digits without leading zeros);
fractional or exponent forms are outside the model and fail. -/
def parseJNum (s : Str) : Option (Int × Str) :=
  let core (t : Str) : Option (Nat × Str) :=
    let digits := t.takeWhile Char.isDigit
    let rest := t.dropWhile Char.isDigit
    match digits with
    | [] => none
    | d :: dt =>
      if d = '0' && !dt.isEmpty then none
      else
        match rest with
        | [] => some (digits.foldl (fun a c => a * 10 + (c.toNat - 48)) 0, rest)
        | r :: _ =>
          if r = '.' || r = 'e' || r = 'E' then none
          else some (digits.foldl (fun a c => a * 10 + (c.toNat - 48)) 0, rest)
  match s with
  | c :: t =>
    if c = '-' then
      match core t with
      | some (n, r) => some (-(n : Int), r)
      | none => none
    else
      match core s with
      | some (n, r) => some ((n : Int), r)
      | none => none
  | [] => none

mutual

/-- Parse one JSON value (leading whitespace allowed), with fuel. -/
def parseJVal : Nat → Str → Option (JValue × Str)
  | 0, _ => none
  | fuel + 1, s =>
    let s := s.dropWhile jsonWsCh
    match s with
    | [] => none
    | c :: t =>
      if c = obrc then
        let t2 := t.dropWhile jsonWsCh
        match t2 with
        | d :: t3 =>
          if d = cbrc then some (JValue.jobj [], t3)
          else
            match parseJMembers fuel [] t2 with
            | some (l, r) => some (JValue.jobj l, r)
            | none => none
        | [] => none
      else if c = '[' then
        let t2 := t.dropWhile jsonWsCh
        match t2 with
        | d :: t3 =>
          if d = ']' then some (JValue.jarr [], t3)
          else
            match parseJElems fuel [] t2 with
            | some (l, r) => some (JValue.jarr l, r)
            | none => none
        | [] => none
      else if c = dqc then
        match parseJStr fuel t with
        | some (v, r) => some (JValue.jstr v, r)
        | none => none
      else if c = 't' then
        match litP (lc "rue") t with
        | some r => some (JValue.jbool true, r)
        | none => none
      else if c = 'f' then
        match litP (lc "alse") t with
        | some r => some (JValue.jbool false, r)
        | none => none
      else if c = 'n' then
        match litP (lc "ull") t with
        | some r => some (JValue.jnull, r)
        | none => none
      else
        match parseJNum s with
        | some (n, r) => some (JValue.jnum n, r)
        | none => none

/-- Parse the members of a JSON object after its opening brace (at least one member;
duplicate keys overwrite in place as `JSON.parse` does), with fuel. -/
def parseJMembers : Nat → List (Str × JValue) → Str → Option (List (Str × JValue) × Str)
  | 0, _, _ => none
  | fuel + 1, acc, s =>
    let s := s.dropWhile jsonWsCh
    match s with
    | c :: t =>
      if c = dqc then
        match parseJStr fuel t with
        | none => none
        | some (k, r1) =>
          let r2 := r1.dropWhile jsonWsCh
          match r2 with
          | ':' :: r3 =>
            match parseJVal fuel r3 with
            | none => none
            | some (v, r4) =>
              let r5 := r4.dropWhile jsonWsCh
              match r5 with
              | ',' :: r6 => parseJMembers fuel (jsSet acc k v) r6
              | d :: r6 => if d = cbrc then some (jsSet acc k v, r6) else none
              | [] => none
          | _ => none
      else none
    | [] => none

/-- Parse the elements of a JSON array after its opening bracket (at least one
element), with fuel. -/
def parseJElems : Nat → List JValue → Str → Option (List JValue × Str)
  | 0, _, _ => none
  | fuel + 1, acc, s =>
    match parseJVal fuel s with
    | none => none
    | some (v, r) =>
      let r2 := r.dropWhile jsonWsCh
      match r2 with
      | ',' :: r3 => parseJElems fuel (acc ++ [v]) r3
      | ']' :: r3 => some (acc ++ [v], r3)
      | _ => none

end

/-- `JSON.parse`: parse one value and require only whitespace after it. -/
def jsonParse (s : Str) : Option JValue :=
  match parseJVal (s.length + 1) s with
  | some (v, rest) => if (rest.dropWhile jsonWsCh).isEmpty then some v else none
  | none => none

/-- The resolved Identity Configuration produced by `main` before any file is
touched (lines 114-120): the sanitized slug, trimmed product name, and the three
optional values with slug-derived defaults. -/
structure Identity where
  slug : Str
  productName : Str
  appId : Str
  packageName : Str
  desktopFile : Str
deriving DecidableEq

/-- An environment snapshot: each variable name maps to its value when set. -/
def Env : Type := Str → Option Str

/-- Embedding of `requireEnv` (lines 4-8): an unset variable and — because JS
treats the empty string as falsy — a variable set to the empty string both fail
with the `Missing required env` error. -/
def requireEnv (name : Str) (v : Option Str) : Except Str Str :=
  match v with
  | none => Except.error (lc "Missing required env: " ++ name)
  | some s =>
    if s.isEmpty then Except.error (lc "Missing required env: " ++ name) else Except.ok s

/-- First character class of the slug pattern `^[a-z0-9][a-z0-9-]*$`. -/
def slugBaseCh (c : Char) : Bool :=
  (decide ('a' ≤ c) && decide (c ≤ 'z')) || c.isDigit

/-- Tail character class of the slug pattern. -/
def slugTailCh (c : Char) : Bool := slugBaseCh c || c = '-'

/-- Whether a string matches `^[a-z0-9][a-z0-9-]*$` in full. -/
def slugMatch (s : Str) : Bool :=
  match s with
  | [] => false
  | c :: t => slugBaseCh c && t.all slugTailCh

/-- The fixed part of the malformed-slug error message. -/
def slugErrPrefix : Str :=
  lc "APP_SLUG must match /^[a-z0-9][a-z0-9-]*$/ (lowercase, digits, hyphen). Got: "

/-- Embedding of `sanitizeSlug` (lines 10-18): trim the input, test the slug
pattern on the trimmed value, and fail with a message carrying the
`JSON.stringify` rendering of the original input when it does not match. -/
def sanitizeSlug (input : Str) : Except Str Str :=
  let slug := jsTrim input
  if slugMatch slug then Except.ok slug
  else Except.error (slugErrPrefix ++ jsonQuoteStr input)

/-- Embedding of the Identity-Configuration resolution in `main` (lines 114-120):
required variables through `requireEnv`/`sanitizeSlug`/trim-and-check, optional
variables defaulted from the slug only when entirely unset, then trimmed. -/
def resolveIdentity (env : Env) : Except Str Identity :=
  match requireEnv (lc "APP_SLUG") (env (lc "APP_SLUG")) with
  | Except.error e => Except.error e
  | Except.ok raw =>
    match sanitizeSlug raw with
    | Except.error e => Except.error e
    | Except.ok slug =>
      match requireEnv (lc "APP_PRODUCT_NAME") (env (lc "APP_PRODUCT_NAME")) with
      | Except.error e => Except.error e
      | Except.ok pn0 =>
        if (jsTrim pn0).isEmpty then Except.error (lc "APP_PRODUCT_NAME cannot be empty")
        else
          Except.ok
            { slug := slug
              productName := jsTrim pn0
              appId := jsTrim ((env (lc "APP_ID")).getD (lc "dev.sun." ++ slug))
              packageName := jsTrim ((env (lc "APP_PACKAGE_NAME")).getD (slug ++ lc "-browser"))
              desktopFile := jsTrim ((env (lc "DESKTOP_FILE")).getD (slug ++ lc ".desktop")) }

/-- The result reported by each handler: the file and whether a write occurred. -/
structure PatchResult where
  file : Str
  changed : Bool
deriving DecidableEq

/-- The four target files' contents. -/
structure FS where
  packageJson : Str
  builderTs : Str
  controllerTs : Str
  mainTs : Str
deriving DecidableEq

/-- Embedding of `writeIfChanged` (lines 27-32): compare the previous and new
content; report `changed` and the content now on disk. -/
def writeIfChanged (p prev next : Str) : PatchResult × Str :=
  if prev = next then ({ file := p, changed := false }, prev)
  else ({ file := p, changed := true }, next)

/-- Content transformation of `patchPackageJson` (lines 34-43): parse the manifest,
assign the `name` and `productName` properties, re-serialise with 2-space indent and
a trailing newline.  A non-object manifest makes the property assignment throw in
strict mode, except for arrays, whose extra properties `JSON.stringify` drops. -/
def patchPackageJsonContent (packageName productName content : Str) : Except Str Str :=
  match jsonParse content with
  | none => Except.error (lc "SyntaxError: JSON.parse")
  | some (JValue.jobj fields) =>
    Except.ok (ppJ 0 (JValue.jobj
      (jsSet (jsSet fields (lc "name") (JValue.jstr packageName))
        (lc "productName") (JValue.jstr productName))) ++ ['\n'])
  | some (JValue.jarr l) => Except.ok (ppJ 0 (JValue.jarr l) ++ ['\n'])
  | some _ => Except.error (lc "TypeError: Cannot create property on primitive")

/-- Content transformation of `patchElectronBuilderTs` (lines 62-84): the `appId`
and `productName` quoted-assignment replacements, the best-effort Windows
executable-name alignment, then the two-tier Linux executable-name rule. -/
def patchElectronBuilderTsContent (cfg : Identity) (content : Str) : Except Str Str :=
  match appIdStep cfg.appId content with
  | Except.error e => Except.error e
  | Except.ok c1 =>
    match productNameStep cfg.productName c1 with
    | Except.error e => Except.error e
    | Except.ok c2 => ensureLinuxExecutableName (winStep cfg.slug c2) cfg.slug

/-- Path of the package manifest. -/
def packageJsonPath : Str := lc "package.json"

/-- Path of the builder configuration. -/
def builderTsPath : Str := lc "electron-builder.ts"

/-- Path of the default-browser controller source. -/
def controllerTsPath : Str := lc "src/main/controllers/default-browser-controller/index.ts"

/-- Path of the application header source. -/
def mainTsPath : Str := lc "src/main/index.ts"

/-- The package-manifest handler against the filesystem state. -/
def patchPackageJsonFS (cfg : Identity) (fs : FS) : Except Str (PatchResult × FS) :=
  match patchPackageJsonContent cfg.packageName cfg.productName fs.packageJson with
  | Except.error e => Except.error e
  | Except.ok next =>
    let (r, c) := writeIfChanged packageJsonPath fs.packageJson next
    Except.ok (r, { fs with packageJson := c })

/-- The builder-configuration handler against the filesystem state. -/
def patchElectronBuilderTsFS (cfg : Identity) (fs : FS) : Except Str (PatchResult × FS) :=
  match patchElectronBuilderTsContent cfg fs.builderTs with
  | Except.error e => Except.error e
  | Except.ok next =>
    let (r, c) := writeIfChanged builderTsPath fs.builderTs next
    Except.ok (r, { fs with builderTs := c })

/-- The default-browser-launcher handler against the filesystem state. -/
def patchDefaultBrowserControllerFS (cfg : Identity) (fs : FS) : Except Str (PatchResult × FS) :=
  match patchDefaultBrowserControllerContent cfg.desktopFile fs.controllerTs with
  | Except.error e => Except.error e
  | Except.ok next =>
    let (r, c) := writeIfChanged controllerTsPath fs.controllerTs next
    Except.ok (r, { fs with controllerTs := c })

/-- The application-header handler against the filesystem state (its content
transformation never fails). -/
def patchMainHeaderFS (cfg : Identity) (fs : FS) : PatchResult × FS :=
  let next := patchMainHeaderContent cfg.productName fs.mainTs
  let (r, c) := writeIfChanged mainTsPath fs.mainTs next
  (r, { fs with mainTs := c })

/-- Embedding of `main` (lines 111-134): resolve the Identity Configuration, then
run the four handlers in their fixed order, stopping at the first error; the
filesystem state reflects every write performed before the stop. -/
def mainRun (env : Env) (fs : FS) : Except Str (List PatchResult) × FS :=
  match resolveIdentity env with
  | Except.error e => (Except.error e, fs)
  | Except.ok cfg =>
    match patchPackageJsonFS cfg fs with
    | Except.error e => (Except.error e, fs)
    | Except.ok (r1, fs1) =>
      match patchElectronBuilderTsFS cfg fs1 with
      | Except.error e => (Except.error e, fs1)
      | Except.ok (r2, fs2) =>
        match patchDefaultBrowserControllerFS cfg fs2 with
        | Except.error e => (Except.error e, fs2)
        | Except.ok (r3, fs3) =>
          let (r4, fs4) := patchMainHeaderFS cfg fs3
          (Except.ok [r1, r2, r3, r4], fs4)

/-- Whether the content has any `linux:\s*\{` block opener at all (the common
prefix required by both the executable-name test regex and the insertion anchor). -/
def hasLinuxBlockOpen (content : Str) : Bool :=
  (scanP (blockOpenAt (lc "linux:") false) none content).isSome

/-- Template fixture: a package manifest with the default template values. -/
def fixturePackageJson : Str :=
  lc "\x7b\"name\": \"flow\", \"productName\": \"Flow Browser\", \"version\": \"1.0.0\"\x7d\n"

/-- Template fixture: a builder configuration with the default template values. -/
def fixtureBuilderTs : Str :=
  lc "const config = \x7b\n  appId: \"dev.sun.flow\",\n  productName: \"Flow Browser\",\n  win: \x7b\n    executableName: \"flow\"\n  \x7d,\n  linux: \x7b\n    executableName: \"flow\"\n  \x7d\n\x7d;\n"

/-- Template fixture: the default-browser controller source. -/
def fixtureControllerTs : Str :=
  lc "await execAsync(\"xdg-settings set default-web-browser flow.desktop\");\n"

/-- Template fixture: the application header source with one banner occurrence. -/
def fixtureMainTs : Str := lc "// --- Flow Browser ---\n"

/-- The template fixture filesystem. -/
def fixtureFS : FS :=
  { packageJson := fixturePackageJson
    builderTs := fixtureBuilderTs
    controllerTs := fixtureControllerTs
    mainTs := fixtureMainTs }

/-- The end-to-end scenario environment of the specification: `APP_SLUG=acme`,
`APP_PRODUCT_NAME=Acme Browser`, no other variables set. -/
def scenarioEnv : Env := fun n =>
  if n = lc "APP_SLUG" then some (lc "acme")
  else if n = lc "APP_PRODUCT_NAME" then some (lc "Acme Browser")
  else none

/-! Helper lemmas about the scanners. -/

/-- A literal pattern matches its own append. -/
theorem litP_self_append (p r : Str) : litP p (p ++ r) = some r := by
  induction p with
  | nil => rfl
  | cons c t ih => simpa [litP] using ih

/-- A successful literal match returns a suffix of the input. -/
theorem litP_sfx (p : Str) : ∀ s r, litP p s = some r → r <:+ s := by
  induction p with
  | nil =>
    intro s r h
    simp [litP] at h
    subst h
    exact List.suffix_refl s
  | cons c ct ih =>
    intro s r h
    cases s with
    | nil => simp [litP] at h
    | cons a t =>
      simp only [litP] at h
      by_cases hc : a = c
      · rw [if_pos hc] at h
        exact (ih t r h).trans (List.suffix_cons a t)
      · rw [if_neg hc] at h
        exact absurd h (by simp)

/-- A successful literal match occurs as a substring. -/
theorem hasSub_of_litP {n s : Str} {r : Str} (h : litP n s = some r) : hasSub n s = true := by
  cases s with
  | nil => simp [hasSub, h]
  | cons c t => simp [hasSub, h]

/-- Substring absence is inherited by the tail. -/
theorem hasSub_tail {n : Str} {c : Char} {t : Str} (h : hasSub n (c :: t) = false) :
    hasSub n t = false := by
  simp [hasSub] at h
  exact h.2

/-- Substring absence is inherited by suffixes. -/
theorem hasSub_sfx {n r s : Str} (hs : r <:+ s) (h : hasSub n s = false) :
    hasSub n r = false := by
  obtain ⟨p, rfl⟩ := hs
  induction p with
  | nil => simpa using h
  | cons c pt ih => exact ih (hasSub_tail h)

/-- A needle occurs in any string of the shape `pre ++ needle ++ post`. -/
theorem hasSub_append_mid (n pre post : Str) : hasSub n (pre ++ n ++ post) = true := by
  induction pre with
  | nil =>
    have h : litP n (n ++ post) = some post := litP_self_append n post
    simpa using hasSub_of_litP h
  | cons c pt ih =>
    have hg : ((c :: pt) ++ n ++ post) = c :: (pt ++ (n ++ post)) := by simp
    rw [hg]
    cases hl : litP n (c :: (pt ++ (n ++ post))) with
    | some r => simp [hasSub, hl]
    | none =>
      simp only [hasSub, hl, Option.isSome_none, Bool.false_or]
      simpa using ih

/-- A scan finds nothing when the matcher fails at every suffix of the input. -/
theorem scanP_none_of_matcher_none {α : Type} (m : Option Char → Str → Option α)
    (top : Str) (h : ∀ p r, r <:+ top → m p r = none) :
    ∀ p0 s, s <:+ top → scanP m p0 s = none := by
  intro p0 s
  induction s generalizing p0 with
  | nil => intro hs; simp [scanP, h p0 [] hs]
  | cons c t ih =>
    intro hs
    have ht : t <:+ top := (List.suffix_cons c t).trans hs
    simp [scanP, h p0 (c :: t) hs, ih (some c) ht]

/-- A scan with a weaker matcher finds nothing when a scan with a stronger one
finds nothing. -/
theorem scanP_none_mono {α β : Type} (m1 : Option Char → Str → Option α)
    (m2 : Option Char → Str → Option β) (h : ∀ p s, m1 p s = none → m2 p s = none) :
    ∀ p0 s, scanP m1 p0 s = none → scanP m2 p0 s = none := by
  intro p0 s
  induction s generalizing p0 with
  | nil =>
    intro hn
    simp [scanP] at hn ⊢
    cases h1 : m1 p0 [] with
    | some a => simp [h1] at hn
    | none => simp [h p0 [] h1]
  | cons c t ih =>
    intro hn
    simp only [scanP] at hn ⊢
    cases h1 : m1 p0 (c :: t) with
    | some a => simp [h1] at hn
    | none =>
      rw [h1] at hn
      rw [h p0 (c :: t) h1]
      cases h2 : scanP m1 (some c) t with
      | some pa => rw [h2] at hn; rcases pa with ⟨pp, aa⟩; simp at hn
      | none => rw [ih (some c) h2]

/-- The block-open matcher hands the scan a suffix of its input. -/
theorem blockOpenAt_rest_sfx {kw : Str} {b : Bool} {p : Option Char} {s : Str}
    {x : Str × Str} (h : blockOpenAt kw b p s = some x) : x.2 <:+ s := by
  unfold blockOpenAt at h
  split at h
  · exact absurd h (by simp)
  · split at h
    · exact absurd h (by simp)
    · rename_i s1 hl
      split at h
      · exact absurd h (by simp)
      · rename_i c s2 hd
        split at h
        · have hx : x.2 = s2 := by
            cases h
            rfl
          rw [hx]
          have h2 : s2 <:+ s1.dropWhile jsWsCh := by
            rw [hd]
            exact List.suffix_cons c s2
          exact (h2.trans (List.dropWhile_suffix jsWsCh)).trans (litP_sfx kw s s1 hl)
        · exact absurd h (by simp)

/-- The executable-name opener cannot match where its literal key is absent. -/
theorem execQuotePresentAt_none {top : Str} (h : hasSub execKey top = false) :
    ∀ p r, r <:+ top → execQuotePresentAt p r = none := by
  intro p r hr
  unfold execQuotePresentAt
  by_cases hw : wordBoundaryOk p = true
  · rw [if_pos hw]
    cases hl : litP execKey r with
    | none => rfl
    | some s1 =>
      have : hasSub execKey r = true := hasSub_of_litP hl
      rw [hasSub_sfx hr h] at this
      exact absurd this (by simp)
  · rw [if_neg hw]

/-- When the key `executableName:` occurs nowhere in the content, the
win-block test regex cannot match. -/
theorem winExecTest_false_of_no_key {content : Str} (h : hasSub execKey content = false) :
    winExecTest content = false := by
  have hm : ∀ p r, r <:+ content → blockExecTestAt (lc "win:") true p r = none := by
    intro p r hr
    unfold blockExecTestAt
    cases hb : blockOpenAt (lc "win:") true p r with
    | none => rfl
    | some orest =>
      obtain ⟨o1, o2⟩ := orest
      have hrest : o2 <:+ content := (blockOpenAt_rest_sfx hb).trans hr
      have hnone : scanP execQuotePresentAt (some obrc) o2 = none :=
        scanP_none_of_matcher_none execQuotePresentAt content
          (execQuotePresentAt_none h) (some obrc) o2 hrest
      simp [hnone]
  have hs : scanP (blockExecTestAt (lc "win:") true) none content = none :=
    scanP_none_of_matcher_none (blockExecTestAt (lc "win:") true) content
      (fun p r hr => hm p r hr) none content (List.suffix_refl content)
  unfold winExecTest
  rw [hs]
  rfl

/-- Without a block opener the executable-name test matcher fails. -/
theorem blockExecTestAt_none_of_open_none {kw : Str} {b : Bool} {p : Option Char} {s : Str}
    (h : blockOpenAt kw b p s = none) : blockExecTestAt kw b p s = none := by
  unfold blockExecTestAt
  rw [h]

/-- Without a block opener the insertion-anchor matcher fails. -/
theorem linuxAnchorAt_none_of_open_none {p : Option Char} {s : Str}
    (h : blockOpenAt (lc "linux:") false p s = none) : linuxAnchorAt p s = none := by
  unfold linuxAnchorAt
  rw [h]

/-- A string none of whose characters is whitespace is fixed by `jsTrim`. -/
theorem jsTrim_eq_self {s : Str} (h : ∀ c ∈ s, jsWsCh c = false) : jsTrim s = s := by
  unfold jsTrim
  have h1 : s.dropWhile jsWsCh = s := by
    cases s with
    | nil => rfl
    | cons c t => simp [List.dropWhile, h c (by simp)]
  rw [h1]
  have h2 : s.reverse.dropWhile jsWsCh = s.reverse := by
    cases hr : s.reverse with
    | nil => rfl
    | cons c t =>
      have hc : c ∈ s := by
        have : c ∈ s.reverse := by rw [hr]; simp
        simpa using this
      simp [List.dropWhile, h c hc]
  rw [h2, List.reverse_reverse]

/-- Characters allowed by the slug pattern are never JS whitespace. -/
theorem slugTailCh_not_ws {c : Char} (h : slugTailCh c = true) : jsWsCh c = false := by
  cases hb : jsWsCh c
  · rfl
  · exfalso
    have hm : c ∈ jsWsChars := by
      unfold jsWsCh at hb
      simpa using hb
    unfold jsWsChars at hm
    simp only [List.mem_cons, List.not_mem_nil, or_false] at hm
    rcases hm with rfl | rfl | rfl | rfl | rfl | rfl | rfl | rfl | rfl | rfl | rfl | rfl | rfl
      | rfl | rfl | rfl | rfl | rfl | rfl | rfl | rfl | rfl | rfl | rfl | rfl
      <;> revert h <;> decide

/-- All characters of a slug-pattern match are slug characters. -/
theorem slugMatch_chars {s : Str} (h : slugMatch s = true) : ∀ c ∈ s, slugTailCh c = true := by
  cases s with
  | nil => simp [slugMatch] at h
  | cons c0 t =>
    unfold slugMatch at h
    simp only [Bool.and_eq_true] at h
    intro c hc
    rcases List.mem_cons.mp hc with rfl | hct
    · unfold slugTailCh
      rw [h.1]
      rfl
    · exact (List.all_eq_true.mp h.2) c hct

/-- What a successful `sanitizeSlug` tells about its result. -/
theorem sanitizeSlug_ok {input slug : Str} (h : sanitizeSlug input = Except.ok slug) :
    slug = jsTrim input ∧ slugMatch slug = true := by
  unfold sanitizeSlug at h
  by_cases hm : slugMatch (jsTrim input) = true
  · rw [if_pos hm] at h
    cases h
    exact ⟨rfl, hm⟩
  · rw [if_neg hm] at h
    exact absurd h (by simp)

/-- Appending non-whitespace strings stays non-whitespace, so slug-derived
defaults are fixed by the trim applied to them. -/
theorem jsTrim_append_slug (pre slug post : Str)
    (hpre : ∀ c ∈ pre, jsWsCh c = false) (hpost : ∀ c ∈ post, jsWsCh c = false)
    (h : slugMatch slug = true) : jsTrim (pre ++ slug ++ post) = pre ++ slug ++ post := by
  apply jsTrim_eq_self
  intro c hc
  simp only [List.append_assoc, List.mem_append] at hc
  rcases hc with hc | hc | hc
  · exact hpre c hc
  · exact slugTailCh_not_ws (slugMatch_chars h c hc)
  · exact hpost c hc

/-- Escaping is the identity on strings without JSON-escaped characters. -/
theorem flatMap_jsonEscape_id {s : Str} (h : ∀ c ∈ s, jsonEscapeCh c = [c]) :
    s.flatMap jsonEscapeCh = s := by
  induction s with
  | nil => rfl
  | cons c t ih =>
    simp only [List.flatMap_cons]
    rw [h c (List.mem_cons_self c t), ih (fun d hd => h d (List.mem_cons_of_mem c hd))]
    rfl

/-! The claims. -/

/-- C1: the builder-configuration handler is claimed to reuse the quote character
that delimited the original `appId`/`productName` value.  Evaluating the embedded
replacement shows the code instead always inserts double quotes around the new
value and leaves the original closing quote in place: `appId: 'old-id'` becomes
`appId: "new-id"'` (not `appId: 'new-id'`), and even the double-quoted
`appId: "old-id"` becomes `appId: "new-id""` with a duplicated closing quote. -/
theorem C1_appId_quote_not_preserved :
    appIdStep (lc "new-id") (lc "appId: " ++ [sqc] ++ lc "old-id" ++ [sqc]) =
      Except.ok (lc "appId: \"new-id\"" ++ [sqc]) ∧
    appIdStep (lc "new-id") (lc "appId: \"old-id\"") =
      Except.ok (lc "appId: \"new-id\"\"") ∧
    productNameStep (lc "New Name") (lc "productName: " ++ [sqc] ++ lc "Old" ++ [sqc]) =
      Except.ok (lc "productName: \"New Name\"" ++ [sqc]) := by
  refine ⟨?_, ?_, ?_⟩ <;> rfl

/-- C2: the full run is claimed to be idempotent — a second run over the files
produced by a successful first run should report `changed=false` for every handler.
Evaluating the embedded program on the canonical template fixture with the
end-to-end scenario configuration shows the first run succeeds and changes all four
files, but the second run rewrites `electron-builder.ts` again (`changed=true`),
because the quote-duplication slip of the `appId`/`productName` replacement
(see the C1 analysis) appends one more quote character on every run. -/
theorem C2_second_run_rewrites_builder :
    (mainRun scenarioEnv fixtureFS).1 =
      Except.ok [⟨packageJsonPath, true⟩, ⟨builderTsPath, true⟩,
        ⟨controllerTsPath, true⟩, ⟨mainTsPath, true⟩] ∧
    (mainRun scenarioEnv (mainRun scenarioEnv fixtureFS).2).1 =
      Except.ok [⟨packageJsonPath, false⟩, ⟨builderTsPath, true⟩,
        ⟨controllerTsPath, false⟩, ⟨mainTsPath, false⟩] ∧
    (mainRun scenarioEnv (mainRun scenarioEnv fixtureFS).2).2 ≠
      (mainRun scenarioEnv fixtureFS).2 := by
  refine ⟨?_, ?_, ?_⟩
  · rfl
  · rfl
  · decide

/-- C3 counterexample: the claim quantifies over every string failing the raw
pattern `^[a-z0-9][a-z0-9-]*$` and asserts the Validator never accepts such a
string; but `sanitizeSlug` trims its input first, so the string `abc ` (with a
trailing space) fails the pattern yet is accepted, with the trimmed value
returned. -/
theorem C3_whitespace_padded_slug_accepted :
    slugMatch (lc "abc ") = false ∧
    sanitizeSlug (lc "abc ") = Except.ok (lc "abc") := by
  exact ⟨by rfl, by rfl⟩

/-- C3 amended: for every string whose trimmed value fails the slug pattern,
the Validator fails with the configuration error whose message carries the
`JSON.stringify` rendering of the original input (hence the offending input
verbatim whenever none of its characters needs JSON escaping); strings whose
trimmed value matches the pattern are accepted even when the raw string does not
match it (surrounding whitespace is dropped). -/
theorem C3_slug_validation_amended : ∀ s : Str, slugMatch (jsTrim s) = false →
    sanitizeSlug s = Except.error (slugErrPrefix ++ jsonQuoteStr s) ∧
    ((∀ c ∈ s, jsonEscapeCh c = [c]) →
      hasSub s (slugErrPrefix ++ jsonQuoteStr s) = true) := by
  intro s h
  constructor
  · simp [sanitizeSlug, h]
  · intro hesc
    have hq : jsonQuoteStr s = [dqc] ++ s ++ [dqc] := by
      unfold jsonQuoteStr
      rw [flatMap_jsonEscape_id hesc]
    rw [hq]
    have hg : slugErrPrefix ++ ([dqc] ++ s ++ [dqc]) =
        (slugErrPrefix ++ [dqc]) ++ s ++ [dqc] := by simp
    rw [hg]
    exact hasSub_append_mid s (slugErrPrefix ++ [dqc]) [dqc]

/-- C3 witness: the concrete malformed input `Foo` (uppercase) is rejected with the
message carrying it, and the message contains it as a substring. -/
theorem C3_slug_validation_amended_witness :
    sanitizeSlug (lc "Foo") = Except.error (slugErrPrefix ++ jsonQuoteStr (lc "Foo")) ∧
    hasSub (lc "Foo") (slugErrPrefix ++ jsonQuoteStr (lc "Foo")) = true :=
  ⟨(C3_slug_validation_amended (lc "Foo") (by rfl)).1,
   (C3_slug_validation_amended (lc "Foo") (by rfl)).2 (by decide)⟩

/-- C4 counterexample: the claim asserts that a `linux: { }` block lacking the
`executableName` field gets the line inserted immediately after the opening brace —
explicitly including a block written as `linux: { }` on one line.  The insertion
anchor regex `(linux:\s*\{\s*\n)` requires a newline after the brace, so on the
one-line block the patch instead fails with the `Pattern not found` error. -/
theorem C4_one_line_block_insertion_fails :
    ensureLinuxExecutableName (lc "linux: \x7b \x7d\n") (lc "acme") =
      Except.error linuxInsertNotFoundMsg := by
  rfl

/-- C4 amended: the two-tier rule patches in place (quote preserved, no duplicate
line) when a quoted `executableName` follows some `linux: {` opener — even one
beyond the block's closing brace, since the lazy gap may cross it — and inserts
`    executableName: "<slug>",` right after the first `linux: {` opener that is
followed by a newline; a one-line `linux: { }` block without the field has no such
anchor and fails with `PatternNotFoundError`. -/
theorem C4_linux_two_tier_amended :
    (∀ q : Char, q = dqc ∨ q = sqc ∨ q = bqc →
      ensureLinuxExecutableName
        (lc "linux: \x7b\n  executableName: " ++ [q] ++ lc "flow" ++ [q] ++ lc "\n\x7d\n")
        (lc "acme") =
      Except.ok
        (lc "linux: \x7b\n  executableName: " ++ [q] ++ lc "acme" ++ [q] ++ lc "\n\x7d\n")) ∧
    ensureLinuxExecutableName (lc "linux: \x7b\n\x7d\n") (lc "acme") =
      Except.ok (lc "linux: \x7b\n    executableName: \"acme\",\n\x7d\n") ∧
    ensureLinuxExecutableName
        (lc "linux: \x7b\n\x7d\nmac: \x7b\n  executableName: \"x\"\n\x7d\n") (lc "acme") =
      Except.ok (lc "linux: \x7b\n\x7d\nmac: \x7b\n  executableName: \"acme\"\n\x7d\n") ∧
    ensureLinuxExecutableName (lc "linux: \x7b \x7d") (lc "acme") =
      Except.error linuxInsertNotFoundMsg := by
  refine ⟨?_, by rfl, by rfl, by rfl⟩
  rintro q (rfl | rfl | rfl) <;> rfl

/-- C4 witness: the quote-preserving in-place branch at the double quote. -/
theorem C4_linux_two_tier_amended_witness :
    ensureLinuxExecutableName
      (lc "linux: \x7b\n  executableName: " ++ [dqc] ++ lc "flow" ++ [dqc] ++ lc "\n\x7d\n")
      (lc "acme") =
    Except.ok
      (lc "linux: \x7b\n  executableName: " ++ [dqc] ++ lc "acme" ++ [dqc] ++ lc "\n\x7d\n") :=
  C4_linux_two_tier_amended.1 dqc (Or.inl rfl)

/-- C5 counterexample: the claim asserts the Windows step leaves the content
unchanged when the `win:` block has no `executableName` field and never modifies a
field of a different block.  With a field-less `win: { }` block followed by a
`linux:` block that has the field, the lazy gap of `\bwin:\s*\{[\s\S]*?` crosses
the `win:` block's closing brace and the step rewrites the `linux:` block's
field instead. -/
theorem C5_win_step_modifies_linux_field :
    winStep (lc "acme")
        (lc "win: \x7b\n\x7d\nlinux: \x7b\n  executableName: " ++ [sqc] ++ lc "flow" ++ [sqc] ++ lc "\n\x7d\n") =
      lc "win: \x7b\n\x7d\nlinux: \x7b\n  executableName: " ++ [sqc] ++ lc "acme" ++ [sqc] ++ lc "\n\x7d\n" ∧
    lc "win: \x7b\n\x7d\nlinux: \x7b\n  executableName: " ++ [sqc] ++ lc "acme" ++ [sqc] ++ lc "\n\x7d\n" ≠
      lc "win: \x7b\n\x7d\nlinux: \x7b\n  executableName: " ++ [sqc] ++ lc "flow" ++ [sqc] ++ lc "\n\x7d\n" := by
  exact ⟨by rfl, by decide⟩

/-- C5 amended: when a quoted `executableName` follows a `win:` opening brace
anywhere (the lazy gap may cross the block boundary), the first such value is
replaced with its quote character preserved; when the key `executableName:` occurs
nowhere in the content, the step raises no error and returns the content
unchanged. -/
theorem C5_win_best_effort_amended :
    (∀ q : Char, q = dqc ∨ q = sqc ∨ q = bqc →
      winStep (lc "acme")
          (lc "win: \x7b\n  executableName: " ++ [q] ++ lc "flow" ++ [q] ++ lc "\n\x7d\n") =
        lc "win: \x7b\n  executableName: " ++ [q] ++ lc "acme" ++ [q] ++ lc "\n\x7d\n") ∧
    (∀ content name : Str, hasSub execKey content = false → winStep name content = content) := by
  constructor
  · rintro q (rfl | rfl | rfl) <;> rfl
  · intro content name h
    unfold winStep
    rw [winExecTest_false_of_no_key h]
    rfl

/-- C5 witness: the quote-preserving branch at the backtick quote and the no-op
branch on content without the key. -/
theorem C5_win_best_effort_amended_witness :
    winStep (lc "acme")
        (lc "win: \x7b\n  executableName: " ++ [bqc] ++ lc "flow" ++ [bqc] ++ lc "\n\x7d\n") =
      lc "win: \x7b\n  executableName: " ++ [bqc] ++ lc "acme" ++ [bqc] ++ lc "\n\x7d\n" ∧
    winStep (lc "acme") (lc "win: \x7b\n\x7d\n") = lc "win: \x7b\n\x7d\n" :=
  ⟨C5_win_best_effort_amended.1 bqc (Or.inr (Or.inr rfl)),
   C5_win_best_effort_amended.2 (lc "win: \x7b\n\x7d\n") (lc "acme") (by rfl)⟩

/-- C6: for every builder-configuration content with no `linux:` block opener at
all, the Linux executable-name patch fails with the `PatternNotFoundError` whose
message carries the description of the logical field
(`electron-builder linux.executableName insertion`), and no patched content is
produced. -/
theorem C6_missing_linux_block_fails :
    ∀ content name : Str, hasLinuxBlockOpen content = false →
      ensureLinuxExecutableName content name = Except.error linuxInsertNotFoundMsg ∧
      hasSub (lc "electron-builder linux.executableName insertion") linuxInsertNotFoundMsg
        = true := by
  intro content name h
  have hopen : scanP (blockOpenAt (lc "linux:") false) none content = none := by
    unfold hasLinuxBlockOpen at h
    cases hs : scanP (blockOpenAt (lc "linux:") false) none content with
    | some x => rw [hs] at h; exact absurd h (by simp)
    | none => rfl
  have htest : scanP (blockExecTestAt (lc "linux:") false) none content = none :=
    scanP_none_mono _ _ (fun _ _ hn => blockExecTestAt_none_of_open_none hn) none content hopen
  have hanchor : scanP linuxAnchorAt none content = none :=
    scanP_none_mono _ _ (fun _ _ hn => linuxAnchorAt_none_of_open_none hn) none content hopen
  constructor
  · have htest' : linuxExecTest content = false := by
      unfold linuxExecTest
      rw [htest]
      rfl
    unfold ensureLinuxExecutableName
    rw [htest']
    simp [hanchor]
  · decide

/-- C6 witness: a builder configuration without any `linux:` block. -/
theorem C6_missing_linux_block_fails_witness :
    ensureLinuxExecutableName (lc "export default \x7b mac: \x7b\x7d \x7d;\n") (lc "acme") =
      Except.error linuxInsertNotFoundMsg :=
  (C6_missing_linux_block_fails (lc "export default \x7b mac: \x7b\x7d \x7d;\n") (lc "acme")
    (by rfl)).1

/-- C7 counterexample: the claim asserts that every literal occurrence of the
banner (not just the first) is replaced.  The banner `--- Flow Browser ---` can
overlap itself on the shared `---`; in the 37-character content below the two
overlapping occurrences are not both replaced — `replaceAll` resumes after the
first match, so the output still contains the banner (the product name `P` plays
no part in that). -/
theorem C7_overlapping_banner_survives :
    patchMainHeaderContent (lc "P") (lc "--- Flow Browser --- Flow Browser ---") =
      lc "--- P --- Flow Browser ---" ∧
    hasSub bannerStr (lc "--- P --- Flow Browser ---") = true ∧
    hasSub bannerStr (lc "P") = false := by
  refine ⟨by rfl, by rfl, by rfl⟩

/-- C7 amended: the header handler replaces the banner's occurrences in
left-to-right non-overlapping fashion (overlapping occurrences sharing the `---`
delimiter may survive); a content with zero occurrences is left byte-identical and
the handler reports `changed=false` rather than failing; a content with several
disjoint occurrences has all of them replaced. -/
theorem C7_banner_replacement_amended :
    (∀ P content : Str, hasSub bannerStr content = false →
      patchMainHeaderContent P content = content) ∧
    (∀ (cfg : Identity) (fs : FS), hasSub bannerStr fs.mainTs = false →
      patchMainHeaderFS cfg fs = (⟨mainTsPath, false⟩, fs)) ∧
    patchMainHeaderContent (lc "Acme Browser")
        (lc "a --- Flow Browser --- b --- Flow Browser --- c") =
      lc "a --- Acme Browser --- b --- Acme Browser --- c" := by
  have habs : ∀ P content : Str, hasSub bannerStr content = false →
      patchMainHeaderContent P content = content := by
    intro P content h
    unfold patchMainHeaderContent
    rw [h]
    rfl
  refine ⟨habs, ?_, by rfl⟩
  intro cfg fs h
  unfold patchMainHeaderFS
  rw [habs cfg.productName fs.mainTs h]
  unfold writeIfChanged
  simp

/-- C7 witness: a header without the banner is untouched and reported unchanged. -/
theorem C7_banner_replacement_amended_witness :
    patchMainHeaderFS ⟨lc "acme", lc "Acme", lc "a", lc "b", lc "c"⟩
        ⟨lc "p", lc "q", lc "r", lc "hello world"⟩ =
      (⟨mainTsPath, false⟩, ⟨lc "p", lc "q", lc "r", lc "hello world"⟩) :=
  C7_banner_replacement_amended.2.1 ⟨lc "acme", lc "Acme", lc "a", lc "b", lc "c"⟩
    ⟨lc "p", lc "q", lc "r", lc "hello world"⟩ (by rfl)

/-- C8: whenever Identity-Configuration resolution fails — a missing required
value, a malformed slug, or an empty product name after trimming — the run halts
with exactly that error and the four target files are byte-for-byte unchanged. -/
theorem C8_validation_precedes_io :
    ∀ (env : Env) (fs : FS) (e : Str), resolveIdentity env = Except.error e →
      mainRun env fs = (Except.error e, fs) := by
  intro env fs e h
  unfold mainRun
  rw [h]

/-- C8 witness: the empty environment halts with the missing-slug error and the
fixture filesystem is returned untouched. -/
theorem C8_validation_precedes_io_witness :
    mainRun (fun _ => none) fixtureFS =
      (Except.error (lc "Missing required env: APP_SLUG"), fixtureFS) :=
  C8_validation_precedes_io (fun _ => none) fixtureFS
    (lc "Missing required env: APP_SLUG") (by rfl)

/-- C9: a required variable set to the empty string is treated exactly like an
unset one — `requireEnv` fails with the missing-required-environment error naming
the variable (the empty string is falsy in JS), not with the slug-format error or
the product-name-emptiness error. -/
theorem C9_empty_required_env_is_missing :
    (∀ name : Str, requireEnv name (some []) = requireEnv name none ∧
      requireEnv name none = Except.error (lc "Missing required env: " ++ name)) ∧
    (∀ env : Env, env (lc "APP_SLUG") = some [] →
      resolveIdentity env = Except.error (lc "Missing required env: APP_SLUG")) ∧
    (∀ env : Env, env (lc "APP_SLUG") = some (lc "acme") →
      env (lc "APP_PRODUCT_NAME") = some [] →
      resolveIdentity env = Except.error (lc "Missing required env: APP_PRODUCT_NAME")) := by
  refine ⟨fun name => ⟨rfl, rfl⟩, ?_, ?_⟩
  · intro env h
    unfold resolveIdentity
    rw [h]
    rfl
  · intro env h1 h2
    unfold resolveIdentity
    rw [h1, h2]
    rfl

/-- C9 witness: concrete environments with the required variables set empty. -/
theorem C9_empty_required_env_is_missing_witness :
    resolveIdentity (fun n => if n = lc "APP_SLUG" then some [] else none) =
      Except.error (lc "Missing required env: APP_SLUG") ∧
    resolveIdentity
        (fun n => if n = lc "APP_SLUG" then some (lc "acme")
          else if n = lc "APP_PRODUCT_NAME" then some [] else none) =
      Except.error (lc "Missing required env: APP_PRODUCT_NAME") :=
  ⟨C9_empty_required_env_is_missing.2.1 _ (by rfl),
   C9_empty_required_env_is_missing.2.2 _ (by rfl) (by rfl)⟩

/-- C10: the slug-derived default of each optional variable (`APP_ID`,
`APP_PACKAGE_NAME`, `DESKTOP_FILE`) applies only when the variable is entirely
unset; a set variable — even the empty or all-whitespace string — suppresses the
default and contributes its trimmed value, which may be empty. -/
theorem C10_optional_env_defaults :
    ∀ (env : Env) (cfg : Identity), resolveIdentity env = Except.ok cfg →
      (cfg.appId = match env (lc "APP_ID") with
        | none => lc "dev.sun." ++ cfg.slug
        | some v => jsTrim v) ∧
      (cfg.packageName = match env (lc "APP_PACKAGE_NAME") with
        | none => cfg.slug ++ lc "-browser"
        | some v => jsTrim v) ∧
      (cfg.desktopFile = match env (lc "DESKTOP_FILE") with
        | none => cfg.slug ++ lc ".desktop"
        | some v => jsTrim v) := by
  intro env cfg h
  unfold resolveIdentity at h
  cases h1 : requireEnv (lc "APP_SLUG") (env (lc "APP_SLUG")) with
  | error e => rw [h1] at h; exact absurd h (by simp)
  | ok raw =>
    rw [h1] at h
    dsimp only at h
    cases h2 : sanitizeSlug raw with
    | error e => rw [h2] at h; exact absurd h (by simp)
    | ok slug =>
      rw [h2] at h
      dsimp only at h
      cases h3 : requireEnv (lc "APP_PRODUCT_NAME") (env (lc "APP_PRODUCT_NAME")) with
      | error e => rw [h3] at h; exact absurd h (by simp)
      | ok pn0 =>
        rw [h3] at h
        dsimp only at h
        by_cases h4 : (jsTrim pn0).isEmpty = true
        · rw [if_pos h4] at h; exact absurd h (by simp)
        · rw [if_neg h4] at h
          injection h with h5
          subst h5
          have hm : slugMatch slug = true := (sanitizeSlug_ok h2).2
          refine ⟨?_, ?_, ?_⟩
          · cases ha : env (lc "APP_ID") with
            | none =>
              show jsTrim ((Option.getD none (lc "dev.sun." ++ slug))) = lc "dev.sun." ++ slug
              have := jsTrim_append_slug (lc "dev.sun.") slug [] (by decide) (by simp) hm
              simpa using this
            | some v => rfl
          · cases ha : env (lc "APP_PACKAGE_NAME") with
            | none =>
              show jsTrim ((Option.getD none (slug ++ lc "-browser"))) = slug ++ lc "-browser"
              have := jsTrim_append_slug [] slug (lc "-browser") (by simp) (by decide) hm
              simpa using this
            | some v => rfl
          · cases ha : env (lc "DESKTOP_FILE") with
            | none =>
              show jsTrim ((Option.getD none (slug ++ lc ".desktop"))) = slug ++ lc ".desktop"
              have := jsTrim_append_slug [] slug (lc ".desktop") (by simp) (by decide) hm
              simpa using this
            | some v => rfl

/-- C10 witness: with `APP_ID` set to whitespace only, `DESKTOP_FILE` set to a
padded value and `APP_PACKAGE_NAME` unset, the resolved configuration takes the
trimmed set values (the appId becoming empty) and only the package name gets the
slug-derived default. -/
theorem C10_optional_env_defaults_witness :
    (resolveIdentity (fun n =>
        if n = lc "APP_SLUG" then some (lc "acme")
        else if n = lc "APP_PRODUCT_NAME" then some (lc "Acme Browser")
        else if n = lc "APP_ID" then some (lc "   ")
        else if n = lc "DESKTOP_FILE" then some (lc " x.desktop ")
        else none)).map (fun cfg => (cfg.appId, cfg.packageName, cfg.desktopFile)) =
      Except.ok ([], lc "acme-browser", lc "x.desktop") := by
  have h := C10_optional_env_defaults (fun n =>
      if n = lc "APP_SLUG" then some (lc "acme")
      else if n = lc "APP_PRODUCT_NAME" then some (lc "Acme Browser")
      else if n = lc "APP_ID" then some (lc "   ")
      else if n = lc "DESKTOP_FILE" then some (lc " x.desktop ")
      else none)
    { slug := lc "acme", productName := lc "Acme Browser", appId := [],
      packageName := lc "acme-browser", desktopFile := lc "x.desktop" } (by rfl)
  obtain ⟨ha, hp, hd⟩ := h
  simp only [Except.map]
  rw [show (resolveIdentity (fun n =>
      if n = lc "APP_SLUG" then some (lc "acme")
      else if n = lc "APP_PRODUCT_NAME" then some (lc "Acme Browser")
      else if n = lc "APP_ID" then some (lc "   ")
      else if n = lc "DESKTOP_FILE" then some (lc " x.desktop ")
      else none)) = Except.ok
    { slug := lc "acme", productName := lc "Acme Browser", appId := [],
      packageName := lc "acme-browser", desktopFile := lc "x.desktop" } from by rfl]

end PatchApp
